import Mathlib

/-!
Verification of the mt5-template repository: the databuilder feature-encoding
pipeline (`databuilder.py`) and the custom training step (`source/trainer.py`),
shallowly embedded in Lean 4.

Python strings are modelled as `List Char`; Python `s[-n:]` is `takeRightL n s`
(drop all but the last `n` characters). Dicts whose insertion order matters are
modelled as association lists. Tensors of loss values are modelled as `List ℚ`.
The tokenizer is an external collaborator; its batch-encode call is modelled
from its documented semantics (truncate to max length, pad with a pad id,
attention mask of ones over real tokens and zeros over padding), parameterised
by an arbitrary tokenization function `List Char → List Nat`.
-/

namespace MT5Template

/-- A data row restricted to the two configured text columns
(`source_column` / `target_column` of `DatabuilderArguments`). -/
structure Row where
  source : List Char
  target : List Char
deriving DecidableEq, Repr, Inhabited

/-- The fields of `DatabuilderArguments` that the encoding pipeline reads
(`Databuilder.__init__` in databuilder.py). -/
structure DbConfig where
  source_max_length : Nat
  target_max_length : Nat
  highlight_token : List Char
  separation_token : List Char
deriving DecidableEq, Repr

/-- Python `s[-n:]`: the trailing `n` characters (the whole string when it is
shorter than `n`). -/
def takeRightL (n : Nat) (s : List Char) : List Char :=
  s.drop (s.length - n)

/-- The literal end-of-sequence marker used by `Databuilder._add_eos`. -/
def eosMarker : List Char := String.toList "</s>"

/-- What `_add_eos` appends: a single space followed by the marker. -/
def eosSuffix : List Char := String.toList " </s>"

/-- `Databuilder._add_eos` on one field: the list-indexing trick
`[s + " </s>", s][s[-4:] == '</s>']` selects `s` unchanged when the trailing
4 characters equal the marker, and `s + " </s>"` otherwise. -/
def addEosField (s : List Char) : List Char :=
  if takeRightL 4 s = eosMarker then s else s ++ eosSuffix

/-- `Databuilder._add_eos`: applied to both the source and the target column
of a row. -/
def add_eos (r : Row) : Row :=
  { source := addEosField r.source, target := addEosField r.target }

/-- Python `str.replace(pattern, repl)` for a NONEMPTY pattern: scan left to
right; at each position, if the pattern matches, emit the replacement and skip
past the matched characters, otherwise emit one character and continue.
`Databuilder._replace_special_tokens` only calls it with the nonempty literal
placeholder patterns. On a cons cell the skip `drop (pat.length - 1) rest` is
Python's advance past the full match (`drop pat.length (c :: rest)`). -/
def replaceAll (pat repl : List Char) : List Char → List Char
  | [] => []
  | c :: rest =>
    if pat ≠ [] ∧ List.take pat.length (c :: rest) = pat then
      repl ++ replaceAll pat repl (List.drop (pat.length - 1) rest)
    else
      c :: replaceAll pat repl rest
termination_by l => l.length
decreasing_by
  · simp only [List.length_drop, List.length_cons]; omega
  · simp only [List.length_cons]; omega

/-- The highlight placeholder pattern replaced in the source field
(the literal braces are written as hex escapes). -/
def hlPattern : List Char := String.toList "\x7bhl_token\x7d"

/-- The separation placeholder pattern replaced in the target field. -/
def sepPattern : List Char := String.toList "\x7bsep_token\x7d"

/-- `Databuilder._replace_special_tokens`: literal replacement of the highlight
placeholder by `highlight_token` in the source field and of the separation
placeholder by `separation_token` in the target field. -/
def replace_special_tokens (cfg : DbConfig) (r : Row) : Row :=
  { source := replaceAll hlPattern cfg.highlight_token r.source,
    target := replaceAll sepPattern cfg.separation_token r.target }

/-- `s` contains an occurrence of `pat` as a contiguous substring. -/
def containsPat (pat s : List Char) : Prop :=
  ∃ a b : List Char, s = a ++ pat ++ b

/-- `pat` does not overlap a shifted copy of itself (no nonempty proper
border), so occurrences of `pat` in any string cannot overlap. -/
def noSelfOverlap (pat : List Char) : Prop :=
  ∀ m : Nat, 0 < m → m < pat.length →
    List.drop m pat ≠ List.take (pat.length - m) pat

/-- One sequence of `tokenizer.batch_encode_plus(..., max_length, padding=
max_length, truncation=True).input_ids`: the token ids of the text, truncated
to `maxLen` from the end, then padded with the pad id up to `maxLen`.
`tok` is the tokenizer's text-to-subword-ids map (external collaborator). -/
def encodeIds (tok : List Char → List Nat) (maxLen padId : Nat)
    (text : List Char) : List Nat :=
  List.take maxLen (tok text) ++
    List.replicate (maxLen - (List.take maxLen (tok text)).length) padId

/-- The matching `attention_mask` sequence: 1 for real tokens, 0 for padding. -/
def encodeMask (tok : List Char → List Nat) (maxLen : Nat)
    (text : List Char) : List Nat :=
  List.replicate (List.take maxLen (tok text)).length 1 ++
    List.replicate (maxLen - (List.take maxLen (tok text)).length) 0

/-- The three aligned outputs of `Databuilder._to_features` for one batch. -/
structure Encodings where
  source_ids : List (List Nat)
  target_ids : List (List Nat)
  attention_mask : List (List Nat)
deriving DecidableEq, Repr

/-- `Databuilder._to_features`: batch-encode the source column at
`source_max_length` and the target column at `target_max_length`; keep the
source ids and mask and the target ids. -/
def to_features (tok : List Char → List Nat) (padId : Nat) (cfg : DbConfig)
    (batch : List Row) : Encodings :=
  { source_ids := batch.map (fun r => encodeIds tok cfg.source_max_length padId r.source),
    target_ids := batch.map (fun r => encodeIds tok cfg.target_max_length padId r.target),
    attention_mask := batch.map (fun r => encodeMask tok cfg.source_max_length r.source) }

/-- `Databuilder.preprocess`: map EOS normalization over the rows, then
special-token substitution, then the batched feature conversion. -/
def preprocess (tok : List Char → List Nat) (padId : Nat) (cfg : DbConfig)
    (dataset : List Row) : Encodings :=
  to_features tok padId cfg
    ((dataset.map add_eos).map (replace_special_tokens cfg))

/-- A loaded dataframe: its column names and its rows (after `astype(str)`).
Only the parts `databuilder.main` inspects are modelled. -/
structure DataFrame where
  columns : List String
  rows : List Row
deriving DecidableEq, Repr

/-- The path and column fields of `DatabuilderArguments` that `main` checks. -/
structure DbPathArgs where
  source_column : String
  target_column : String
  train_csv_path : String
  valid_csv_path : String
  train_file_path : String
  valid_file_path : String
deriving DecidableEq, Repr

/-- Python `path[-3:] == '.pt'` as a predicate on the modelled path string. -/
def hasPtExtension (path : String) : Prop :=
  takeRightL 3 path.toList = String.toList ".pt"

instance (path : String) : Decidable (hasPtExtension path) := by
  unfold hasPtExtension; infer_instance

/-- `databuilder.main` after the dataframes are loaded, parameterised by the
split-encoding stage `encodeFn` (tokenizer loading, `Dataset.from_pandas`,
`preprocess`, format setting and `torch.save` of one split). In order: the
assert on the training dataframe's columns, the assert on the validation
dataframe's columns, the assert on the two save-path extensions; only then the
two datasets are built and encoded — and both are built from `train_df`
(`Dataset.from_pandas(train_df)` on both lines of the source). The returned
pair is (content saved at train_file_path, content saved at valid_file_path);
an `Except.error` is a raised `AssertionError` with its message. -/
def databuilderMain {E : Type} (encodeFn : DataFrame → E) (args : DbPathArgs)
    (train_df valid_df : DataFrame) : Except String (E × E) :=
  if ¬ (args.source_column ∈ train_df.columns ∧ args.target_column ∈ train_df.columns) then
    Except.error (args.source_column ++ " or " ++ args.target_column
      ++ " column missing in " ++ args.train_csv_path ++ ".")
  else if ¬ (args.source_column ∈ valid_df.columns ∧ args.target_column ∈ valid_df.columns) then
    Except.error (args.source_column ++ " or " ++ args.target_column
      ++ " column missing in " ++ args.valid_csv_path ++ ".")
  else if ¬ (hasPtExtension args.train_file_path ∧ hasPtExtension args.valid_file_path) then
    Except.error "train_file_path and valid_file_path must be .pt files."
  else
    Except.ok (encodeFn train_df, encodeFn train_df)

/-- The default column/path arguments of `DEFAULT_ARGS` in databuilder.py. -/
def defaultDbPathArgs : DbPathArgs :=
  { source_column := "source_text",
    target_column := "target_text",
    train_csv_path := "data/train.tsv",
    valid_csv_path := "data/valid.tsv",
    train_file_path := "data/train.pt",
    valid_file_path := "data/valid.pt" }

/-- A training dataframe with one row, distinct from `validDfEx`. -/
def trainDfEx : DataFrame :=
  { columns := ["source_text", "target_text"],
    rows := [{ source := String.toList "train src", target := String.toList "train tgt" }] }

/-- A validation dataframe whose rows differ from `trainDfEx`'s. -/
def validDfEx : DataFrame :=
  { columns := ["source_text", "target_text"],
    rows := [{ source := String.toList "valid src", target := String.toList "valid tgt" }] }

/-- A value stored in the training-step `inputs` dict: a tensor (its data and
the device currently holding it), a boolean, or some other non-tensor value. -/
inductive Val where
  | tensor : List ℚ → Nat → Val
  | boolean : Bool → Val
  | raw : String → Val
deriving DecidableEq, Repr

/-- `v.to(device)`: tensors move to the device; `isinstance(v, torch.Tensor)`
is false for the other constructors, which are left untouched. -/
def toDevice (device : Nat) : Val → Val
  | Val.tensor data _ => Val.tensor data device
  | Val.boolean b => Val.boolean b
  | Val.raw s => Val.raw s

/-- Whether a value is a tensor (`isinstance(v, torch.Tensor)`). -/
def isTensorVal : Val → Prop
  | Val.tensor _ _ => True
  | _ => False

/-- Python dict assignment `d[k] = v` on an ordered association list: update
in place when the key exists, append otherwise. -/
def dictSet : List (String × Val) → String → Val → List (String × Val)
  | [], k, v => [(k, v)]
  | (k', v') :: rest, k, v =>
    if k' = k then (k, v) :: rest else (k', v') :: dictSet rest k v

/-- Dict lookup `d[k]` (first matching key). -/
def dictGet (d : List (String × Val)) (k : String) : Option Val :=
  (d.find? (fun p => p.1 == k)).map Prod.snd

/-- The fields of the HF `TrainingArguments` read by `_training_step`. -/
structure RunArgs where
  device : Nat
  n_gpu : Nat
  gradient_accumulation_steps : Nat
  fp16 : Bool
deriving DecidableEq, Repr

/-- The custom `Trainer` of source/trainer.py: the base-trainer arguments plus
the `label_smoothing` rate stored by `Trainer.__init__`. -/
structure Trainer where
  label_smoothing : ℚ
  args : RunArgs
deriving DecidableEq, Repr

/-- The model as `_training_step` sees it: whether it is wrapped in
`nn.DataParallel`, and its forward pass from the keyword inputs to the loss
tensor `outputs[0]` (one value per replica). -/
structure Model where
  isDataParallel : Bool
  forward : List (String × Val) → List ℚ

/-- The optimizer handle; `ampScale` is the loss-scale factor that
`amp.scale_loss(loss, optimizer)` applies under fp16. -/
structure Optimizer where
  ampScale : ℚ
deriving DecidableEq, Repr

/-- `tensor.mean()`: the arithmetic mean of the per-replica loss values. -/
def tensorMean (l : List ℚ) : ℚ := l.sum / (l.length : ℚ)

/-- `tensor.item()`: the plain numeric value of a scalar tensor. -/
def tensorItem (l : List ℚ) : ℚ := l.headD 0

/-- The observable side effects of one `_training_step` call: the train-mode
flag set on the model, every tensor `backward` was invoked on, and whether the
step touched the optimizer or the gradients (it never does — the body contains
no `optimizer.step()` and no `zero_grad()`). -/
structure StepEffects where
  trainModeSet : Bool
  backwardCalls : List (List ℚ)
  optimizerStepped : Bool
  gradientsZeroed : Bool
deriving DecidableEq, Repr

/-- The result of one `_training_step` call: the returned float, the caller's
`inputs` dict after the call (the dict is mutated in place, so the post-state
is what the caller observes), and the recorded side effects. -/
structure StepResult where
  ret : ℚ
  inputs : List (String × Val)
  effects : StepEffects

/-- `Trainer._training_step`: set train mode; move every tensor entry of
`inputs` to the device in place; under `nn.DataParallel` set
`inputs["return_tuple"] = True`; run the forward pass; take `outputs[0]` as
the loss; mean-reduce it when `n_gpu > 1`; divide it by
`gradient_accumulation_steps` when that exceeds 1; call backward on the scaled
loss under fp16 and on the loss itself otherwise; return `loss.item()`. -/
def training_step (t : Trainer) (model : Model)
    (inputs : List (String × Val)) (optimizer : Optimizer) : StepResult :=
  let moved := inputs.map (fun kv => (kv.1, toDevice t.args.device kv.2))
  let inputs2 := if model.isDataParallel then
      dictSet moved "return_tuple" (Val.boolean true) else moved
  let loss0 := model.forward inputs2
  let loss1 := if t.args.n_gpu > 1 then [tensorMean loss0] else loss0
  let loss2 := if t.args.gradient_accumulation_steps > 1 then
      loss1.map (fun x => x / (t.args.gradient_accumulation_steps : ℚ)) else loss1
  let backwardArg := if t.args.fp16 then
      loss2.map (fun x => optimizer.ampScale * x) else loss2
  { ret := tensorItem loss2,
    inputs := inputs2,
    effects := { trainModeSet := true,
                 backwardCalls := [backwardArg],
                 optimizerStepped := false,
                 gradientsZeroed := false } }

/-- A concrete trainer for sanity checks: one GPU, accumulation factor 4,
fp16 off, label smoothing 0. -/
def exTrainer4 : Trainer :=
  { label_smoothing := 0,
    args := { device := 0, n_gpu := 1, gradient_accumulation_steps := 4,
              fp16 := false } }

/-- A concrete unwrapped model whose forward pass returns the scalar loss 6. -/
def exModel6 : Model :=
  { isDataParallel := false, forward := fun _ => [6] }

theorem takeRightL_length_lt {s : List Char} (h : s.length < 4) :
    takeRightL 4 s = s := by
  unfold takeRightL
  have : s.length - 4 = 0 := by omega
  simp [this]

theorem eosMarker_length : eosMarker.length = 4 := by decide

theorem eosSuffix_append (s : List Char) :
    s ++ eosSuffix = (s ++ [Char.ofNat 32]) ++ eosMarker := by
  simp [eosSuffix, eosMarker]

theorem takeRightL_append_eosSuffix (s : List Char) :
    takeRightL 4 (s ++ eosSuffix) = eosMarker := by
  rw [eosSuffix_append]
  unfold takeRightL
  have hlen : ((s ++ [Char.ofNat 32]) ++ eosMarker).length = s.length + 5 := by
    simp [eosMarker]
  rw [hlen]
  have h4 : s.length + 5 - 4 = (s ++ [Char.ofNat 32]).length := by simp
  rw [h4, List.drop_left]

theorem addEosField_of_marker {s : List Char} (h : takeRightL 4 s = eosMarker) :
    addEosField s = s := by
  simp [addEosField, h]

theorem addEosField_of_not_marker {s : List Char}
    (h : takeRightL 4 s ≠ eosMarker) :
    addEosField s = s ++ eosSuffix := by
  simp [addEosField, h]

theorem addEosField_idem (s : List Char) :
    addEosField (addEosField s) = addEosField s := by
  by_cases h : takeRightL 4 s = eosMarker
  · rw [addEosField_of_marker h, addEosField_of_marker h]
  · rw [addEosField_of_not_marker h]
    exact addEosField_of_marker (takeRightL_append_eosSuffix s)

/-- C5: EOS normalization, applied to both the source and target field of every
row, leaves a field unchanged when its trailing 4 characters equal the literal
marker `</s>`, otherwise appends exactly one space followed by the marker; a
field shorter than 4 characters compares its entire content against the marker
and always gets the marker appended. -/
theorem c5_add_eos_spec (r : Row) :
    ((takeRightL 4 r.source = eosMarker → (add_eos r).source = r.source) ∧
      (takeRightL 4 r.source ≠ eosMarker →
        (add_eos r).source = r.source ++ eosSuffix) ∧
      (r.source.length < 4 → (add_eos r).source = r.source ++ eosSuffix)) ∧
    ((takeRightL 4 r.target = eosMarker → (add_eos r).target = r.target) ∧
      (takeRightL 4 r.target ≠ eosMarker →
        (add_eos r).target = r.target ++ eosSuffix) ∧
      (r.target.length < 4 → (add_eos r).target = r.target ++ eosSuffix)) := by
  have short : ∀ s : List Char, s.length < 4 → takeRightL 4 s ≠ eosMarker := by
    intro s hs heq
    have := congrArg List.length heq
    rw [takeRightL_length_lt hs, eosMarker_length] at this
    omega
  refine ⟨⟨?_, ?_, ?_⟩, ?_, ?_, ?_⟩
  · intro h; exact addEosField_of_marker h
  · intro h; exact addEosField_of_not_marker h
  · intro h; exact addEosField_of_not_marker (short _ h)
  · intro h; exact addEosField_of_marker h
  · intro h; exact addEosField_of_not_marker h
  · intro h; exact addEosField_of_not_marker (short _ h)

/-- Witness for C5 at concrete rows: a target already carrying the marker is
unchanged, a source without it gets one space plus the marker, and a 2-char
field gets the marker appended. -/
theorem c5_add_eos_spec_witness :
    (add_eos { source := String.toList "hello",
               target := String.toList "hi </s>" }).source
        = String.toList "hello" ++ eosSuffix ∧
    (add_eos { source := String.toList "hello",
               target := String.toList "hi </s>" }).target
        = String.toList "hi </s>" ∧
    (add_eos { source := String.toList "ab", target := String.toList "ab" }).source
        = String.toList "ab" ++ eosSuffix := by
  refine ⟨?_, ?_, ?_⟩
  · exact (c5_add_eos_spec _).1.2.1 (by decide)
  · exact (c5_add_eos_spec _).2.1 (by decide)
  · exact (c5_add_eos_spec _).1.2.2 (by decide)

/-- C6: EOS normalization is idempotent: a no-op on rows whose fields already
end with the marker, exactly one space-preceded marker appended otherwise, and
re-running the normalization on any result is a no-op. -/
theorem c6_add_eos_idempotent (r : Row) :
    add_eos (add_eos r) = add_eos r ∧
    (takeRightL 4 r.source = eosMarker → (add_eos r).source = r.source) ∧
    (takeRightL 4 r.source ≠ eosMarker →
      (add_eos r).source = r.source ++ eosSuffix) := by
  refine ⟨?_, ?_, ?_⟩
  · show add_eos { source := addEosField r.source, target := addEosField r.target }
        = add_eos r
    simp only [add_eos, addEosField_idem]
  · intro h; exact addEosField_of_marker h
  · intro h; exact addEosField_of_not_marker h

/-- Witness for C6 at a concrete row: double application equals single
application and the marker is appended once. -/
theorem c6_add_eos_idempotent_witness :
    add_eos (add_eos { source := String.toList "abc", target := String.toList "x </s>" })
        = add_eos { source := String.toList "abc", target := String.toList "x </s>" } ∧
    (add_eos { source := String.toList "abc", target := String.toList "x </s>" }).source
        = String.toList "abc" ++ eosSuffix :=
  ⟨(c6_add_eos_idempotent _).1, (c6_add_eos_idempotent _).2.2 (by decide)⟩

theorem not_containsPat_of_short {pat s : List Char}
    (h : s.length < pat.length) : ¬ containsPat pat s := by
  rintro ⟨a, b, rfl⟩
  simp only [List.length_append] at h
  omega

theorem replaceAll_of_not_contains (pat repl : List Char) :
    ∀ s : List Char, ¬ containsPat pat s → replaceAll pat repl s = s := by
  intro s
  induction s with
  | nil => intro _; simp [replaceAll]
  | cons c rest ih =>
    intro h
    rw [replaceAll]
    have hcond : ¬ (pat ≠ [] ∧ List.take pat.length (c :: rest) = pat) := by
      rintro ⟨-, htake⟩
      refine h ⟨[], List.drop pat.length (c :: rest), ?_⟩
      have hdecomp := List.take_append_drop pat.length (c :: rest)
      rw [htake] at hdecomp
      simp only [List.nil_append]
      exact hdecomp.symm
    rw [if_neg hcond]
    have hrest : ¬ containsPat pat rest := by
      rintro ⟨a, b, rfl⟩
      exact h ⟨c :: a, b, by simp⟩
    rw [ih hrest]

theorem replaceAll_first_occ (pat repl : List Char) (hpat : pat ≠ [])
    (hov : noSelfOverlap pat) :
    ∀ a b : List Char, ¬ containsPat pat a →
      replaceAll pat repl (a ++ pat ++ b) = a ++ repl ++ replaceAll pat repl b := by
  intro a
  induction a with
  | nil =>
    intro b _
    obtain ⟨p, pt, rfl⟩ := List.exists_cons_of_ne_nil hpat
    simp only [List.nil_append, List.cons_append]
    rw [replaceAll]
    have htake : List.take (p :: pt).length (p :: (pt ++ b)) = p :: pt := by
      have : p :: (pt ++ b) = (p :: pt) ++ b := by simp
      rw [this, List.take_left]
    rw [if_pos ⟨hpat, htake⟩]
    have hdrop : List.drop ((p :: pt).length - 1) (pt ++ b) = b := by
      simp only [List.length_cons, Nat.add_sub_cancel]
      exact List.drop_left pt b
    rw [hdrop]
  | cons c a' ih =>
    intro b ha
    have hne : ¬ List.take pat.length (c :: (a' ++ pat ++ b)) = pat := by
      intro htake
      have hsplit : c :: (a' ++ pat ++ b) = (c :: a') ++ (pat ++ b) := by simp
      rcases Nat.lt_or_ge (a'.length + 1) pat.length with hlt | hge
      · -- the match at position 0 would overlap the occurrence at |c :: a'|
        rw [hsplit, List.take_append_eq_append_take] at htake
        have hlen : (c :: a').length = a'.length + 1 := by simp
        have htk : List.take pat.length (c :: a') = c :: a' :=
          List.take_of_length_le (by simp; omega)
        rw [htk, hlen] at htake
        have hdrop : List.drop (a'.length + 1) pat
            = List.take (pat.length - (a'.length + 1)) (pat ++ b) := by
          conv_lhs => rw [← htake]
          have h1 : (c :: a').length = a'.length + 1 := by simp
          rw [← h1, List.drop_left]
        have htb : List.take (pat.length - (a'.length + 1)) (pat ++ b)
            = List.take (pat.length - (a'.length + 1)) pat :=
          List.take_append_of_le_length (by omega)
        exact hov (a'.length + 1) (by omega) hlt (hdrop.trans htb)
      · -- the pattern would fit inside c :: a', contradicting ¬ containsPat
        rw [hsplit, List.take_append_of_le_length (by simpa using hge)] at htake
        refine ha ⟨[], List.drop pat.length (c :: a'), ?_⟩
        have hdecomp := List.take_append_drop pat.length (c :: a')
        rw [htake] at hdecomp
        simp only [List.nil_append]
        exact hdecomp.symm
    have ha' : ¬ containsPat pat a' := by
      rintro ⟨x, y, rfl⟩
      exact ha ⟨c :: x, y, by simp⟩
    simp only [List.cons_append]
    rw [replaceAll, if_neg (by rintro ⟨-, h⟩; exact hne (by simpa using h))]
    rw [ih b ha']

theorem hlPattern_ne_nil : hlPattern ≠ [] := by decide

theorem sepPattern_ne_nil : sepPattern ≠ [] := by decide

theorem hlPattern_noSelfOverlap : noSelfOverlap hlPattern := by
  intro m h0 hm
  have h10 : hlPattern.length = 10 := by decide
  rw [h10] at hm
  interval_cases m <;> decide

theorem sepPattern_noSelfOverlap : noSelfOverlap sepPattern := by
  intro m h0 hm
  have h11 : sepPattern.length = 11 := by decide
  rw [h11] at hm
  interval_cases m <;> decide

/-- C7: special-token substitution is exact literal replacement of every
occurrence: a field with no occurrence of its pattern is unchanged, and on a
field `a ++ pattern ++ b` whose prefix `a` is occurrence-free the substitution
emits `a`, then the configured token, then recursively processes `b` — the
left-to-right all-occurrences replacement law. The source field uses the
highlight placeholder/token, the target field the separation ones. -/
theorem c7_replace_special_tokens (cfg : DbConfig) (r : Row) :
    (¬ containsPat hlPattern r.source →
      (replace_special_tokens cfg r).source = r.source) ∧
    (¬ containsPat sepPattern r.target →
      (replace_special_tokens cfg r).target = r.target) ∧
    (∀ a b : List Char, r.source = a ++ hlPattern ++ b → ¬ containsPat hlPattern a →
      (replace_special_tokens cfg r).source
        = a ++ cfg.highlight_token ++ replaceAll hlPattern cfg.highlight_token b) ∧
    (∀ a b : List Char, r.target = a ++ sepPattern ++ b → ¬ containsPat sepPattern a →
      (replace_special_tokens cfg r).target
        = a ++ cfg.separation_token ++ replaceAll sepPattern cfg.separation_token b) := by
  refine ⟨?_, ?_, ?_, ?_⟩
  · intro h; exact replaceAll_of_not_contains _ _ _ h
  · intro h; exact replaceAll_of_not_contains _ _ _ h
  · intro a b hsrc ha
    show replaceAll hlPattern cfg.highlight_token r.source = _
    rw [hsrc]
    exact replaceAll_first_occ _ _ hlPattern_ne_nil hlPattern_noSelfOverlap a b ha
  · intro a b htgt ha
    show replaceAll sepPattern cfg.separation_token r.target = _
    rw [htgt]
    exact replaceAll_first_occ _ _ sepPattern_ne_nil sepPattern_noSelfOverlap a b ha

/-- Witness for C7: a pattern-free source is unchanged, and a target of shape
`"ab" ++ sepPattern ++ "cd"` becomes `"ab" ++ separation_token ++ "cd"`. -/
theorem c7_replace_special_tokens_witness :
    (replace_special_tokens
        { source_max_length := 512, target_max_length := 30,
          highlight_token := String.toList "<hl>",
          separation_token := String.toList "<sep>" }
        { source := String.toList "abc",
          target := String.toList "ab" ++ sepPattern ++ String.toList "cd" }).source
      = String.toList "abc" ∧
    (replace_special_tokens
        { source_max_length := 512, target_max_length := 30,
          highlight_token := String.toList "<hl>",
          separation_token := String.toList "<sep>" }
        { source := String.toList "abc",
          target := String.toList "ab" ++ sepPattern ++ String.toList "cd" }).target
      = String.toList "ab" ++ String.toList "<sep>"
          ++ replaceAll sepPattern (String.toList "<sep>") (String.toList "cd") := by
  constructor
  · exact (c7_replace_special_tokens _ _).1
      (not_containsPat_of_short (by decide))
  · exact (c7_replace_special_tokens _ _).2.2.2 (String.toList "ab")
      (String.toList "cd") rfl (not_containsPat_of_short (by decide))

theorem encodeIds_length (tok : List Char → List Nat) (maxLen padId : Nat)
    (text : List Char) : (encodeIds tok maxLen padId text).length = maxLen := by
  unfold encodeIds
  have h : (List.take maxLen (tok text)).length ≤ maxLen := by
    simp [List.length_take]
  simp only [List.length_append, List.length_replicate]
  omega

theorem encodeMask_length (tok : List Char → List Nat) (maxLen : Nat)
    (text : List Char) : (encodeMask tok maxLen text).length = maxLen := by
  unfold encodeMask
  have h : (List.take maxLen (tok text)).length ≤ maxLen := by
    simp [List.length_take]
  simp only [List.length_append, List.length_replicate]
  omega

/-- C3: for every batch encoded by `_to_features`, every `source_ids[i]` has
length `source_max_length`, every `target_ids[i]` has length
`target_max_length`, every `attention_mask[i]` has length `source_max_length`,
the three outputs have equal outer length equal to the batch size, and a source
text tokenizing to more than `source_max_length` tokens yields exactly the
first `source_max_length` tokens — the function is total, so no error is
raised. -/
theorem c3_feature_lengths (tok : List Char → List Nat) (padId : Nat)
    (cfg : DbConfig) (batch : List Row) (i : Nat) (hi : i < batch.length) :
    (to_features tok padId cfg batch).source_ids.length = batch.length ∧
    (to_features tok padId cfg batch).target_ids.length = batch.length ∧
    (to_features tok padId cfg batch).attention_mask.length = batch.length ∧
    (((to_features tok padId cfg batch).source_ids.getD i []).length
        = cfg.source_max_length) ∧
    (((to_features tok padId cfg batch).target_ids.getD i []).length
        = cfg.target_max_length) ∧
    (((to_features tok padId cfg batch).attention_mask.getD i []).length
        = cfg.source_max_length) ∧
    (cfg.source_max_length < (tok (batch.getD i default).source).length →
      (to_features tok padId cfg batch).source_ids.getD i []
        = List.take cfg.source_max_length (tok (batch.getD i default).source)) := by
  have hs : (to_features tok padId cfg batch).source_ids.getD i []
      = encodeIds tok cfg.source_max_length padId (batch.getD i default).source := by
    simp only [to_features]
    rw [List.getD_eq_getElem _ _ (by simpa using hi), List.getElem_map,
      List.getD_eq_getElem _ _ hi]
  have ht : (to_features tok padId cfg batch).target_ids.getD i []
      = encodeIds tok cfg.target_max_length padId (batch.getD i default).target := by
    simp only [to_features]
    rw [List.getD_eq_getElem _ _ (by simpa using hi), List.getElem_map,
      List.getD_eq_getElem _ _ hi]
  have hm : (to_features tok padId cfg batch).attention_mask.getD i []
      = encodeMask tok cfg.source_max_length (batch.getD i default).source := by
    simp only [to_features]
    rw [List.getD_eq_getElem _ _ (by simpa using hi), List.getElem_map,
      List.getD_eq_getElem _ _ hi]
  refine ⟨by simp [to_features], by simp [to_features], by simp [to_features],
    ?_, ?_, ?_, ?_⟩
  · rw [hs]; exact encodeIds_length ..
  · rw [ht]; exact encodeIds_length ..
  · rw [hm]; exact encodeMask_length ..
  · intro hover
    rw [hs]
    unfold encodeIds
    have hlen : (List.take cfg.source_max_length
        (tok (batch.getD i default).source)).length = cfg.source_max_length := by
      rw [List.length_take]
      omega
    rw [hlen]
    simp

/-- Witness for C3: a 2-row batch with a toy tokenizer (one token per
character), source max 3, target max 5; the second source has 5 > 3 tokens and
is truncated to its first 3. -/
theorem c3_feature_lengths_witness :
    1 < ([{ source := String.toList "ab", target := String.toList "cd" },
          { source := String.toList "vwxyz", target := String.toList "q" }] : List Row).length ∧
    ((to_features (fun s : List Char => s.map Char.toNat) 0
        { source_max_length := 3, target_max_length := 5,
          highlight_token := [], separation_token := [] }
        [{ source := String.toList "ab", target := String.toList "cd" },
         { source := String.toList "vwxyz", target := String.toList "q" }]).source_ids.getD 1 []).length = 3 ∧
    3 < ((fun s : List Char => s.map Char.toNat) (String.toList "vwxyz")).length ∧
    (to_features (fun s : List Char => s.map Char.toNat) 0
        { source_max_length := 3, target_max_length := 5,
          highlight_token := [], separation_token := [] }
        [{ source := String.toList "ab", target := String.toList "cd" },
         { source := String.toList "vwxyz", target := String.toList "q" }]).source_ids.getD 1 []
      = List.take 3 ((fun s : List Char => s.map Char.toNat) (String.toList "vwxyz")) := by
  refine ⟨by decide, ?_, by decide, ?_⟩
  · exact (c3_feature_lengths (fun s : List Char => s.map Char.toNat) 0
      { source_max_length := 3, target_max_length := 5,
        highlight_token := [], separation_token := [] }
      [{ source := String.toList "ab", target := String.toList "cd" },
       { source := String.toList "vwxyz", target := String.toList "q" }] 1 (by decide)).2.2.2.1
  · exact (c3_feature_lengths (fun s : List Char => s.map Char.toNat) 0
      { source_max_length := 3, target_max_length := 5,
        highlight_token := [], separation_token := [] }
      [{ source := String.toList "ab", target := String.toList "cd" },
       { source := String.toList "vwxyz", target := String.toList "q" }] 1 (by decide)).2.2.2.2.2.2
      (by decide)

/-- C9: the encoding pipeline preserves positional order: output index `i` of
each of the three arrays of `preprocess` is the per-row pipeline
(EOS normalization, then substitution, then encoding) applied to input row
`i`, and each output has outer length equal to the input length — no row is
skipped or reordered. -/
theorem c9_order_preserved (tok : List Char → List Nat) (padId : Nat)
    (cfg : DbConfig) (dataset : List Row) (i : Nat) (hi : i < dataset.length) :
    (preprocess tok padId cfg dataset).source_ids.length = dataset.length ∧
    (preprocess tok padId cfg dataset).target_ids.length = dataset.length ∧
    (preprocess tok padId cfg dataset).attention_mask.length = dataset.length ∧
    (preprocess tok padId cfg dataset).source_ids.getD i []
      = encodeIds tok cfg.source_max_length padId
          (replace_special_tokens cfg (add_eos (dataset.getD i default))).source ∧
    (preprocess tok padId cfg dataset).target_ids.getD i []
      = encodeIds tok cfg.target_max_length padId
          (replace_special_tokens cfg (add_eos (dataset.getD i default))).target ∧
    (preprocess tok padId cfg dataset).attention_mask.getD i []
      = encodeMask tok cfg.source_max_length
          (replace_special_tokens cfg (add_eos (dataset.getD i default))).source := by
  refine ⟨by simp [preprocess, to_features], by simp [preprocess, to_features],
    by simp [preprocess, to_features], ?_, ?_, ?_⟩
  · simp only [preprocess, to_features]
    rw [List.getD_eq_getElem _ _ (by simpa using hi)]
    simp only [List.getElem_map]
    rw [List.getD_eq_getElem _ _ hi]
  · simp only [preprocess, to_features]
    rw [List.getD_eq_getElem _ _ (by simpa using hi)]
    simp only [List.getElem_map]
    rw [List.getD_eq_getElem _ _ hi]
  · simp only [preprocess, to_features]
    rw [List.getD_eq_getElem _ _ (by simpa using hi)]
    simp only [List.getElem_map]
    rw [List.getD_eq_getElem _ _ hi]

/-- Witness for C9: in a 2-row batch, output index 1 is the fully processed
input row 1. -/
theorem c9_order_preserved_witness :
    1 < ([{ source := String.toList "a", target := String.toList "b" },
          { source := String.toList "c", target := String.toList "d" }] : List Row).length ∧
    (preprocess (fun s : List Char => s.map Char.toNat) 0
        { source_max_length := 8, target_max_length := 8,
          highlight_token := [], separation_token := [] }
        [{ source := String.toList "a", target := String.toList "b" },
         { source := String.toList "c", target := String.toList "d" }]).source_ids.getD 1 []
      = encodeIds (fun s : List Char => s.map Char.toNat) 8 0
          (replace_special_tokens
            { source_max_length := 8, target_max_length := 8,
              highlight_token := [], separation_token := [] }
            (add_eos { source := String.toList "c", target := String.toList "d" })).source := by
  refine ⟨by decide, ?_⟩
  have h := (c9_order_preserved (fun s : List Char => s.map Char.toNat) 0
      { source_max_length := 8, target_max_length := 8,
        highlight_token := [], separation_token := [] }
      [{ source := String.toList "a", target := String.toList "b" },
       { source := String.toList "c", target := String.toList "d" }] 1 (by decide)).2.2.2.1
  simpa using h

/-- C1 counterexample, recording the defect: with the default arguments and a
validation dataframe whose rows differ from the training dataframe's, the
databuilder main procedure persists the encoding of the TRAINING dataframe at
`valid_file_path` (the second component), not the encoding of the dataframe
loaded from `valid_csv_path`. Instantiating the encoding stage with the
identity exhibits the saved content: `(trainDfEx, trainDfEx)`, whose second
component differs from `validDfEx`. -/
theorem c1_valid_dataset_built_from_train_df :
    databuilderMain id defaultDbPathArgs trainDfEx validDfEx
      = Except.ok (trainDfEx, trainDfEx) ∧ trainDfEx ≠ validDfEx := by
  constructor
  · rfl
  · decide

/-- C8: if the configured source or target column is absent from either loaded
dataframe's schema, or either persisted file path does not end in `.pt`, then
for EVERY possible encoding stage the databuilder main procedure returns a
descriptive error and produces no encoded dataset — the failure happens before
any encoding or tokenization work begins. -/
theorem c8_config_errors_before_encoding {E : Type} (encodeFn : DataFrame → E)
    (args : DbPathArgs) (train_df valid_df : DataFrame)
    (h : args.source_column ∉ train_df.columns ∨ args.target_column ∉ train_df.columns ∨
         args.source_column ∉ valid_df.columns ∨ args.target_column ∉ valid_df.columns ∨
         ¬ hasPtExtension args.train_file_path ∨ ¬ hasPtExtension args.valid_file_path) :
    ∃ msg : String, databuilderMain encodeFn args train_df valid_df
      = Except.error msg := by
  unfold databuilderMain
  by_cases h1 : args.source_column ∈ train_df.columns ∧ args.target_column ∈ train_df.columns
  · rw [if_neg (by simp [h1])]
    by_cases h2 : args.source_column ∈ valid_df.columns ∧ args.target_column ∈ valid_df.columns
    · rw [if_neg (by simp [h2])]
      by_cases h3 : hasPtExtension args.train_file_path ∧ hasPtExtension args.valid_file_path
      · exfalso
        rcases h with h | h | h | h | h | h
        · exact h h1.1
        · exact h h1.2
        · exact h h2.1
        · exact h h2.2
        · exact h h3.1
        · exact h h3.2
      · rw [if_pos h3]
        exact ⟨_, rfl⟩
    · rw [if_pos h2]
      exact ⟨_, rfl⟩
  · rw [if_pos h1]
    exact ⟨_, rfl⟩

/-- Witness for C8: with the default columns but a training dataframe lacking
`target_text`, the procedure errors for the identity encoding stage. -/
theorem c8_config_errors_before_encoding_witness :
    ∃ msg : String,
      databuilderMain id defaultDbPathArgs
        { columns := ["source_text"], rows := [] } validDfEx
        = Except.error msg :=
  c8_config_errors_before_encoding id defaultDbPathArgs
    { columns := ["source_text"], rows := [] } validDfEx
    (Or.inr (Or.inl (by decide)))

/-- C2 counterexample, recording the defect: the training step is entirely
independent of the configured `label_smoothing` rate. `Trainer.__init__`
stores the rate but `_training_step` never reads it and passes nothing derived
from it to the model's forward call, so two trainers differing only in the
rate produce identical results, inputs and side effects on every model, batch
and optimizer — the rate is silently dropped, contradicting the docstring
"Overrides training step to support label smoothing". -/
theorem c2_label_smoothing_dropped (ls₁ ls₂ : ℚ) (args : RunArgs)
    (model : Model) (inputs : List (String × Val)) (optimizer : Optimizer) :
    training_step { label_smoothing := ls₁, args := args } model inputs optimizer
      = training_step { label_smoothing := ls₂, args := args } model inputs optimizer := rfl

/-- C4: under the non-fp16 branch, the float returned by the training step is
the plain numeric value of the forward loss after the two conditional
adjustments (mean reduction when `n_gpu > 1`, then division by the gradient
accumulation step count when it exceeds 1, each stated by its arithmetic),
backward is invoked exactly once, on that adjusted loss, and the step neither
steps the optimizer nor zeroes gradients. -/
theorem c4_training_step_loss (t : Trainer) (model : Model)
    (inputs : List (String × Val)) (optimizer : Optimizer)
    (hfp : t.args.fp16 = false) :
    (training_step t model inputs optimizer).ret
      = tensorItem
          (List.map
            (fun x => if 1 < t.args.gradient_accumulation_steps then
              x / (t.args.gradient_accumulation_steps : ℚ) else x)
            (if 1 < t.args.n_gpu then
              [(model.forward ((training_step t model inputs optimizer).inputs)).sum
                / ((model.forward ((training_step t model inputs optimizer).inputs)).length : ℚ)]
            else model.forward ((training_step t model inputs optimizer).inputs))) ∧
    (training_step t model inputs optimizer).effects.backwardCalls
      = [List.map
          (fun x => if 1 < t.args.gradient_accumulation_steps then
            x / (t.args.gradient_accumulation_steps : ℚ) else x)
          (if 1 < t.args.n_gpu then
            [(model.forward ((training_step t model inputs optimizer).inputs)).sum
              / ((model.forward ((training_step t model inputs optimizer).inputs)).length : ℚ)]
          else model.forward ((training_step t model inputs optimizer).inputs))] ∧
    (training_step t model inputs optimizer).effects.optimizerStepped = false ∧
    (training_step t model inputs optimizer).effects.gradientsZeroed = false := by
  have hmap : ∀ l : List ℚ,
      (if t.args.gradient_accumulation_steps > 1 then
        l.map (fun x => x / (t.args.gradient_accumulation_steps : ℚ)) else l)
      = l.map (fun x => if 1 < t.args.gradient_accumulation_steps then
          x / (t.args.gradient_accumulation_steps : ℚ) else x) := by
    intro l
    by_cases hacc : 1 < t.args.gradient_accumulation_steps
    · simp [hacc]
    · simp [hacc]
  refine ⟨?_, ?_, rfl, rfl⟩
  · show tensorItem _ = _
    rw [← hmap]
    simp only [training_step, tensorMean]
  · show [_] = [_]
    rw [← hmap]
    simp [training_step, hfp, tensorMean]

/-- Witness for C4: one GPU, accumulation 4, fp16 off, forward loss 6: the
step returns 3/2, backward is called on [3/2] only, and neither optimizer step
nor gradient zeroing happens. -/
theorem c4_training_step_loss_witness :
    (exTrainer4.args.fp16 = false) ∧
    (training_step exTrainer4 exModel6 [] { ampScale := 1 }).ret = 3 / 2 ∧
    (training_step exTrainer4 exModel6 [] { ampScale := 1 }).effects.backwardCalls
      = [[3 / 2]] ∧
    (training_step exTrainer4 exModel6 [] { ampScale := 1 }).effects.optimizerStepped
      = false := by
  have h := c4_training_step_loss exTrainer4 exModel6 [] { ampScale := 1 } rfl
  refine ⟨rfl, ?_, ?_, h.2.2.1⟩
  · rw [h.1]; norm_num [tensorItem, exTrainer4, exModel6]
  · rw [h.2.1]; norm_num [exTrainer4, exModel6]

theorem dictSet_of_key_absent (l : List (String × Val)) (k : String) (v : Val)
    (h : ∀ p ∈ l, p.1 ≠ k) : dictSet l k v = l ++ [(k, v)] := by
  induction l with
  | nil => rfl
  | cons hd tl ih =>
    have hne : hd.1 ≠ k := h hd (by simp)
    show dictSet (hd :: tl) k v = hd :: (tl ++ [(k, v)])
    rw [show (hd :: tl) = ((hd.1, hd.2) :: tl) by rfl]
    unfold dictSet
    rw [if_neg hne]
    rw [ih (fun p hp => h p (by simp [hp]))]

theorem dictGet_append_single (l : List (String × Val)) (k : String) (v : Val)
    (h : ∀ p ∈ l, p.1 ≠ k) : dictGet (l ++ [(k, v)]) k = some v := by
  induction l with
  | nil => simp [dictGet, List.find?]
  | cons hd tl ih =>
    have hne : hd.1 ≠ k := h hd (by simp)
    simp only [dictGet, List.cons_append, List.find?]
    rw [show (hd.1 == k) = false by simpa using hne]
    exact ih (fun p hp => h p (by simp [hp]))

/-- C10: the training step mutates the caller's batch dict in place — the
post-call dict (returned as the step's `inputs` component, the caller's own
object) has, at every index of the original dict, the same key and the
device-moved value; `toDevice` moves tensors to the configured device and
leaves non-tensor values unchanged; under `nn.DataParallel` wrapping an
additional entry `"return_tuple" = True` is appended (the dict grows by one
and the key looks up to `True`), and without wrapping the dict is exactly the
device-moved original. -/
theorem c10_step_mutates_inputs (t : Trainer) (model : Model)
    (inputs : List (String × Val)) (optimizer : Optimizer)
    (hrt : ∀ p ∈ inputs, p.1 ≠ "return_tuple") :
    (∀ j, j < inputs.length →
      ((training_step t model inputs optimizer).inputs.getD j ("", Val.raw "")).1
        = (inputs.getD j ("", Val.raw "")).1 ∧
      ((training_step t model inputs optimizer).inputs.getD j ("", Val.raw "")).2
        = toDevice t.args.device (inputs.getD j ("", Val.raw "")).2) ∧
    (∀ data dev, toDevice t.args.device (Val.tensor data dev)
        = Val.tensor data t.args.device) ∧
    (∀ v : Val, ¬ isTensorVal v → toDevice t.args.device v = v) ∧
    (model.isDataParallel = true →
      dictGet (training_step t model inputs optimizer).inputs "return_tuple"
        = some (Val.boolean true) ∧
      (training_step t model inputs optimizer).inputs.length = inputs.length + 1) ∧
    (model.isDataParallel = false →
      (training_step t model inputs optimizer).inputs
        = inputs.map (fun kv => (kv.1, toDevice t.args.device kv.2))) := by
  have hmoved : ∀ p ∈ inputs.map (fun kv => (kv.1, toDevice t.args.device kv.2)),
      p.1 ≠ "return_tuple" := by
    intro p hp
    rcases List.mem_map.mp hp with ⟨q, hq, rfl⟩
    exact hrt q hq
  have hpost : (training_step t model inputs optimizer).inputs
      = if model.isDataParallel then
          (inputs.map (fun kv => (kv.1, toDevice t.args.device kv.2)))
            ++ [("return_tuple", Val.boolean true)]
        else inputs.map (fun kv => (kv.1, toDevice t.args.device kv.2)) := by
    show (if model.isDataParallel then
        dictSet (inputs.map (fun kv => (kv.1, toDevice t.args.device kv.2)))
          "return_tuple" (Val.boolean true)
      else inputs.map (fun kv => (kv.1, toDevice t.args.device kv.2))) = _
    by_cases hdp : model.isDataParallel
    · rw [if_pos hdp, if_pos hdp, dictSet_of_key_absent _ _ _ hmoved]
    · rw [if_neg hdp, if_neg hdp]
  refine ⟨?_, fun _ _ => rfl, ?_, ?_, ?_⟩
  · intro j hj
    have hj' : j < (inputs.map
        (fun kv => (kv.1, toDevice t.args.device kv.2))).length := by simpa using hj
    have hentry : (training_step t model inputs optimizer).inputs.getD j ("", Val.raw "")
        = ((inputs.getD j ("", Val.raw "")).1,
           toDevice t.args.device (inputs.getD j ("", Val.raw "")).2) := by
      rw [hpost]
      by_cases hdp : model.isDataParallel
      · rw [if_pos hdp]
        rw [List.getD_eq_getElem _ _ (by simp; omega)]
        rw [List.getElem_append_left hj']
        rw [List.getElem_map, List.getD_eq_getElem _ _ hj]
      · rw [if_neg hdp]
        rw [List.getD_eq_getElem _ _ hj', List.getElem_map,
          List.getD_eq_getElem _ _ hj]
    rw [hentry]
    exact ⟨rfl, rfl⟩
  · intro v hv
    cases v with
    | tensor data dev => exact absurd trivial hv
    | boolean b => rfl
    | raw s => rfl
  · intro hdp
    rw [hpost, if_pos hdp]
    refine ⟨dictGet_append_single _ _ _ hmoved, by simp⟩
  · intro hdp
    rw [hpost, if_neg (by simp [hdp])]

/-- Witness for C10: a dict with a tensor and a boolean entry, a DataParallel
model on device 2: entry 0 is the moved tensor, entry 1 the unchanged boolean,
and the appended `return_tuple` key reads back `True`. -/
theorem c10_step_mutates_inputs_witness :
    ((training_step
        { label_smoothing := 0,
          args := { device := 2, n_gpu := 2, gradient_accumulation_steps := 1,
                    fp16 := false } }
        { isDataParallel := true, forward := fun _ => [1] }
        [("source_ids", Val.tensor [3] 0), ("flag", Val.boolean false)]
        { ampScale := 1 }).inputs.getD 0 ("", Val.raw "")).2
      = toDevice 2 (Val.tensor [3] 0) ∧
    ((training_step
        { label_smoothing := 0,
          args := { device := 2, n_gpu := 2, gradient_accumulation_steps := 1,
                    fp16 := false } }
        { isDataParallel := true, forward := fun _ => [1] }
        [("source_ids", Val.tensor [3] 0), ("flag", Val.boolean false)]
        { ampScale := 1 }).inputs.getD 1 ("", Val.raw "")).2
      = Val.boolean false ∧
    dictGet (training_step
        { label_smoothing := 0,
          args := { device := 2, n_gpu := 2, gradient_accumulation_steps := 1,
                    fp16 := false } }
        { isDataParallel := true, forward := fun _ => [1] }
        [("source_ids", Val.tensor [3] 0), ("flag", Val.boolean false)]
        { ampScale := 1 }).inputs "return_tuple"
      = some (Val.boolean true) := by
  have h := c10_step_mutates_inputs
    { label_smoothing := 0,
      args := { device := 2, n_gpu := 2, gradient_accumulation_steps := 1,
                fp16 := false } }
    { isDataParallel := true, forward := fun _ => [1] }
    [("source_ids", Val.tensor [3] 0), ("flag", Val.boolean false)]
    { ampScale := 1 } (by decide)
  refine ⟨(h.1 0 (by decide)).2, ?_, (h.2.2.2.1 rfl).1⟩
  have h1 := (h.1 1 (by decide)).2
  simpa using h1

end MT5Template
